import Mathlib

/-!
Verification of the change-detection and prioritization pipeline of
`immigration-intel-brief` (`src/main.py`), shallowly embedded in Lean 4.

Modelling conventions:
- Python strings are `String`; values that may be `None` are `Option String`,
  with Python truthiness (`None` and `""` are falsy) given by `truthy`.
- The state store dict `state["items"]` is an insertion-ordered association
  list (`StateMap`) with `lookupKey` / `setKey` mirroring `dict.get` and
  `dict.__setitem__` (update in place, append if new).
- `hashlib.sha256` (`sha256_text`) is an external library call; the pipeline
  is parameterized by an abstract `hashFn : String → String` (the pipeline
  only relies on it being a deterministic function of the text).
- The network fetch `fetch_full_text` (external collaborator) is an abstract
  parameter `fetch : Item → String × Option String` returning
  `(plain_text, last_modified_hint)`.
- `pytz` wall-clock conversion in `should_send_now` is modelled by
  `TimeZoneModel`: an instant-dependent UTC offset, which is exactly a
  "DST-correct for that instant" conversion.
- `str.split("#")[0]` is the prefix before the first `'#'`, i.e.
  `takeWhile (· != '#')`; `str.strip()` is `pyStrip` (drop whitespace at
  both ends); `str.endswith("/")`/`u[:-1]` are `getLast?`/`dropLast`.
-/

/-- An upstream item as produced by the source adapters and consumed by
`main` (`it.get("source"/"title"/"url"/"summary"/"published")`). -/
structure Item where
  source : String
  title : String
  url : String
  summary : String
  published : Option String
deriving Repr, DecidableEq

/-- One persisted record of `state["items"]` (see `main`, lines 529-543 of
`src/main.py`): keys `first_seen`, `last_seen`, `last_modified`,
`last_content_hash`, `last_title`, `last_source`. -/
structure StateRecord where
  first_seen : String
  last_seen : String
  last_modified : Option String
  last_content_hash : String
  last_title : String
  last_source : String
deriving Repr, DecidableEq

/-- The state store mapping canonical URL keys to records, modelling the
Python dict `state_items` as an insertion-ordered association list. -/
abbrev StateMap := List (String × StateRecord)

/-- Python `state_items.get(url)`. -/
def lookupKey : StateMap → String → Option StateRecord
  | [], _ => none
  | (k, v) :: rest, key => if k = key then some v else lookupKey rest key

/-- Python `state_items[url] = rec` (update in place if the key exists,
append otherwise — dicts preserve insertion order). -/
def setKey : StateMap → String → StateRecord → StateMap
  | [], key, v => [(key, v)]
  | (k, w) :: rest, key, v =>
    if k = key then (key, v) :: rest else (k, w) :: setKey rest key v

/-- Python truthiness of an optional string: `None` and `""` are falsy. -/
def truthy : Option String → Bool
  | none => false
  | some s => !s.isEmpty

/-- Python `a or b or c` on optional strings (returns the first truthy
operand, else the final operand `c`). -/
def pyOr (a b c : Option String) : Option String :=
  if truthy a then a else if truthy b then b else c

/-- The hint-escalation condition of `main` line 501:
`lm_hint and (prior_last_modified is None or str(lm_hint) != str(prior_last_modified))`. -/
def hintEscalates (lm_hint prior : Option String) : Bool :=
  truthy lm_hint &&
    (match prior with
     | none => true
     | some t => lm_hint != some t)

/-- Python `str.strip()` on a character list: drop whitespace from both ends. -/
def pyStrip (l : List Char) : List Char :=
  ((l.dropWhile Char.isWhitespace).reverse.dropWhile Char.isWhitespace).reverse

/-- `normalise_url` (`src/main.py` lines 58-63):
`u = (url or "").split("#")[0].strip(); if u.endswith("/"): u = u[:-1]`.
`split("#")[0]` is the prefix of the string before the first `'#'`. -/
def normalise_url (url : String) : String :=
  let u := pyStrip (url.data.takeWhile (fun c => c != '#'))
  String.mk (if u.getLast? = some '/' then u.dropLast else u)

/-- The classification outcome of `main` lines 493-504 (`SKIP` is the
spec's UNCHANGED). -/
inductive Status where
  | NEW
  | UPDATED
  | SKIP
deriving Repr, DecidableEq

/-- The status decision of `main` lines 493-504: no record → NEW; changed
content hash → UPDATED; hint escalation → UPDATED; otherwise SKIP. -/
def classify_status (prev : Option StateRecord) (content_hash : String)
    (lm_hint : Option String) : Status :=
  match prev with
  | none => .NEW
  | some p =>
    if content_hash ≠ p.last_content_hash then .UPDATED
    else if hintEscalates lm_hint p.last_modified then .UPDATED
    else .SKIP

/-- The state mutation of `main` lines 506-509 (SKIP: only `last_seen`)
and 528-543 (NEW: create the record; UPDATED: refresh the record). -/
def apply_state (st : StateMap) (url : String) (it : Item) (content_hash : String)
    (lm_hint : Option String) (now_local : String) : StateMap :=
  match lookupKey st url with
  | none =>
    setKey st url
      { first_seen := now_local
        last_seen := now_local
        last_modified := pyOr lm_hint it.published none
        last_content_hash := content_hash
        last_title := it.title
        last_source := it.source }
  | some prev =>
    match classify_status (some prev) content_hash lm_hint with
    | .SKIP => setKey st url { prev with last_seen := now_local }
    | _ =>
      setKey st url
        { prev with
          last_seen := now_local
          last_modified := pyOr lm_hint it.published prev.last_modified
          last_content_hash := content_hash
          last_title := it.title
          last_source := it.source }

/-- The outcome of the candidate-processing loop of `main` (lines 469-550):
final state store, the NEW and UPDATED digest lists (UPDATED entries carry
their `previously_covered` date), the items for which `summarise_item` was
invoked, and the `processed` counter. -/
structure ProcOut where
  state : StateMap
  new_items : List Item
  updated_items : List (Item × Option String)
  summarised : List Item
  processed : Nat
deriving Repr, DecidableEq

/-- `MAX_CANDIDATES = 30` (`main` line 473). -/
def MAX_CANDIDATES : Nat := 30

/-- The candidate-processing loop of `main` lines 476-550, parameterized by
the content hash function and the full-text fetch collaborator.
`processed` counts only NEW/UPDATED items; the loop breaks once it reaches
`MAX_CANDIDATES`; items with an empty canonical URL are skipped. -/
def process_candidates (hashFn : String → String)
    (fetch : Item → String × Option String) (now_local : String) :
    List Item → StateMap → Nat → ProcOut
  | [], st, p => ⟨st, [], [], [], p⟩
  | it :: rest, st, p =>
    if MAX_CANDIDATES ≤ p then ⟨st, [], [], [], p⟩
    else
      let url := normalise_url it.url
      if url = "" then process_candidates hashFn fetch now_local rest st p
      else
        let content_hash := hashFn (fetch it).1
        let lm_hint := (fetch it).2
        let status := classify_status (lookupKey st url) content_hash lm_hint
        if status = .SKIP then
          process_candidates hashFn fetch now_local rest
            (apply_state st url it content_hash lm_hint now_local) p
        else
          let prev_cov : Option String :=
            match status, lookupKey st url with
            | .UPDATED, some prev =>
              if prev.last_seen ≠ "" then some prev.last_seen else none
            | _, _ => none
          let r := process_candidates hashFn fetch now_local rest
            (apply_state st url it content_hash lm_hint now_local) (p + 1)
          if status = .NEW then
            { r with new_items := it :: r.new_items,
                     summarised := it :: r.summarised }
          else
            { r with updated_items := (it, prev_cov) :: r.updated_items,
                     summarised := it :: r.summarised }

/-- `STRONG_TERMS` (`src/main.py` lines 92-101). -/
def STRONG_TERMS : List String :=
  ["immigration", "ukvi", "visa", "visas", "evisa", "e-visa", "eta",
   "asylum", "refugee", "nationality", "citizenship", "border",
   "immigration rules", "statement of changes", "leave to remain", "ilr",
   "indefinite leave", "settlement", "sponsor licence", "sponsor license",
   "skilled worker", "student visa", "family visa", "human rights claim",
   "deportation", "removal", "immigration enforcement",
   "modern slavery", "trafficking", "national referral mechanism", "nrm",
   "utiac", "upper tribunal", "first-tier tribunal"]

/-- `MEDIUM_TERMS` (`src/main.py` lines 103-106). -/
def MEDIUM_TERMS : List String :=
  ["fees", "guidance", "policy", "consultation", "sponsor", "compliance",
   "right to work", "right to rent", "civil penalty", "sanctions"]

/-- `EXCLUDE_PHRASES` (`src/main.py` lines 108-112). -/
def EXCLUDE_PHRASES : List String :=
  ["police custody", "pre-charge bail", "strip searches"]

/-- Python `str.lower()`, character by character (`Char.toLower` on the
character list; the term lists and inputs of interest are ASCII). -/
def pyLower (s : String) : String := String.mk (s.data.map Char.toLower)

/-- Python substring membership `needle in hay` on character lists:
`needle` occurs as a contiguous run somewhere in the list. -/
def pyInL (needle : List Char) : List Char → Bool
  | [] => needle.isEmpty
  | c :: rest => needle.isPrefixOf (c :: rest) || pyInL needle rest

/-- Python `needle in hay` on strings. -/
def pyIn (needle hay : String) : Bool := pyInL needle.data hay.data

/-- `relevance_score` (`src/main.py` lines 114-126): lower-case the text,
then +3 per strong term contained, +1 per medium term, -3 per exclusion
phrase (each list entry tested once by substring containment). -/
def relevance_score (text : String) : Int :=
  let t := pyLower text
  let s1 := STRONG_TERMS.foldl (fun sc term => if pyIn term t then sc + 3 else sc) 0
  let s2 := MEDIUM_TERMS.foldl (fun sc term => if pyIn term t then sc + 1 else sc) s1
  EXCLUDE_PHRASES.foldl (fun sc phrase => if pyIn phrase t then sc - 3 else sc) s2

/-- The haystack of `filter_items` (`src/main.py` lines 188-195):
`" ".join([title, summary, source, url]).lower()`. -/
def mkHaystack (it : Item) : String :=
  pyLower (it.title ++ " " ++ it.summary ++ " " ++ it.source ++ " " ++ it.url)

/-- `filter_items` (`src/main.py` lines 180-206): keyword prefilter
(skip the item when the keyword list is non-empty and no lowered keyword
occurs in the haystack), then keep items with `relevance_score ≥ 3`
annotated with their score, finally a stable sort by score descending
(Python `list.sort(key=..., reverse=True)` is stable; `mergeSort` is the
stable model). -/
def filter_items (items : List Item) (keywords : List String) : List (Item × Int) :=
  let kws := keywords.map pyLower
  let out := items.filterMap (fun it =>
    let hay := mkHaystack it
    if !kws.isEmpty && !(kws.any fun k => pyIn k hay) then none
    else
      let score := relevance_score hay
      if 3 ≤ score then some (it, score) else none)
  out.mergeSort (fun a b => decide (b.2 ≤ a.2))

/-- The observable outcome of the tail of `main` (lines 552-573): what
state reached disk, whether the digest email was sent, and whether an
uncaught exception unwound the run. -/
structure TailResult where
  saved_state : Option StateMap
  email_sent : Bool
  raised : Bool
deriving Repr, DecidableEq

/-- The tail of `main` (lines 552-573): `save_state(state)` (no handler —
a raise propagates), then the early return when there is nothing to report
and `always_send` is off, then `send_email` (no handler). The success of
the two effectful collaborators is abstracted by `save_ok` / `send_ok`. -/
def run_tail (st : StateMap) (new_items : List Item)
    (updated_items : List (Item × Option String)) (always_send : Bool)
    (save_ok send_ok : Bool) : TailResult :=
  if !save_ok then ⟨none, false, true⟩
  else if new_items.isEmpty && updated_items.isEmpty && !always_send then
    ⟨some st, false, false⟩
  else if send_ok then ⟨some st, true, false⟩
  else ⟨some st, false, true⟩

/-- A timezone as `pytz` exposes it to `datetime.now(tz)`: a UTC offset in
seconds that may depend on the instant being converted (this dependence is
exactly DST-correctness for that instant). Instants are seconds since the
epoch. -/
structure TimeZoneModel where
  utcOffset : Int → Int

/-- Local wall-clock seconds of an instant in a zone. -/
def local_secs (tz : TimeZoneModel) (instant : Int) : Int :=
  instant + tz.utcOffset instant

/-- `now_local.hour`: the wall-clock hour (0-23) of the instant in the zone. -/
def local_hour (tz : TimeZoneModel) (instant : Int) : Int :=
  ((local_secs tz instant).emod 86400).ediv 3600

/-- `now_local.minute`: the wall-clock minute (0-59) of the instant in the zone. -/
def local_minute (tz : TimeZoneModel) (instant : Int) : Int :=
  (((local_secs tz instant).emod 86400).emod 3600).ediv 60

/-- `should_send_now` (`src/main.py` lines 32-36):
`now_local.hour == send_hour_local and now_local.minute < 20`. -/
def should_send_now (tz : TimeZoneModel) (send_hour_local : Int)
    (now_instant : Int) : Bool :=
  local_hour tz now_instant == send_hour_local &&
    decide (local_minute tz now_instant < 20)

/-! Concrete instances used by witnesses and counterexamples. -/

/-- A sample freshly observed item whose title changed to "New". -/
def itEx : Item :=
  { source := "GOV.UK", title := "New", url := "https://x",
    summary := "", published := none }

/-- A stored record for `itEx`'s URL whose title on record is "Old". -/
def rec0 : StateRecord :=
  { first_seen := "2025-01-01", last_seen := "2025-01-01",
    last_modified := none, last_content_hash := "bodytext",
    last_title := "Old", last_source := "GOV.UK" }

/-- A one-record state store holding `rec0`. -/
def st0 : StateMap := [("https://x", rec0)]

/-- A fetch collaborator returning fixed text and no change hint. -/
def fetchC : Item → String × Option String := fun _ => ("bodytext", none)

/-- A fresh item carrying an upstream `published` timestamp but whose
fetch yields no `last_modified` hint. -/
def itPub : Item :=
  { source := "S", title := "T", url := "https://pub",
    summary := "", published := some "2020-01-01" }

/-- Thirty-one qualifying items with distinct URLs and no prior record. -/
def items31 : List Item :=
  (List.range 31).map (fun i =>
    { source := "S", title := "T", url := "https://site/" ++ toString i,
      summary := "", published := none })

/-! Helper lemmas about the association-list state store. -/

theorem lookupKey_setKey_self (m : StateMap) (k : String) (v : StateRecord) :
    lookupKey (setKey m k v) k = some v := by
  induction m with
  | nil => simp [setKey, lookupKey]
  | cons kv rest ih =>
    obtain ⟨k', v'⟩ := kv
    by_cases h : k' = k
    · simp [setKey, lookupKey, h]
    · simp [setKey, lookupKey, h, ih]

theorem lookupKey_setKey_ne (m : StateMap) (k k' : String) (v : StateRecord)
    (h : k' ≠ k) : lookupKey (setKey m k v) k' = lookupKey m k' := by
  induction m with
  | nil => simp [setKey, lookupKey, Ne.symm h]
  | cons kv rest ih =>
    obtain ⟨k₀, v₀⟩ := kv
    by_cases h₀ : k₀ = k
    · subst h₀
      simp [setKey, lookupKey, Ne.symm h]
    · by_cases h₁ : k₀ = k'
      · simp [setKey, lookupKey, h₀, h₁, h]
      · simp [setKey, lookupKey, h₀, h₁, ih]

/-- After any state mutation for an observation, re-classifying the very
same observation against the mutated store yields SKIP. -/
theorem reobserve_skip (st : StateMap) (url : String) (it : Item)
    (ch : String) (lm : Option String) (now : String) :
    classify_status (lookupKey (apply_state st url it ch lm now) url) ch lm
      = .SKIP := by
  have hesc : ∀ b c : Option String, hintEscalates lm (pyOr lm b c) = false := by
    intro b c
    cases lm with
    | none => simp [hintEscalates, truthy]
    | some s =>
      by_cases hs : s.isEmpty
      · simp [hintEscalates, truthy, hs]
      · simp [hintEscalates, pyOr, truthy, hs]
  unfold apply_state
  cases h : lookupKey st url with
  | none =>
    rw [lookupKey_setKey_self]
    simp [classify_status, hesc]
  | some prev =>
    by_cases hch : ch = prev.last_content_hash
    · by_cases hh : hintEscalates lm prev.last_modified = true
      · simp [classify_status, hch, hh, lookupKey_setKey_self, hesc]
      · simp [classify_status, hch, hh, lookupKey_setKey_self]
    · simp [classify_status, hch, lookupKey_setKey_self, hesc]

/-- C7: `should_send_now` returns true if and only if the instant's local
wall-clock hour in the zone (with the zone's instant-dependent, hence
DST-correct, offset) equals the target hour and the local minute is below
the fixed threshold of 20; since this holds for every zone model, in a
zone with a DST transition on the run date it returns true only when the
local hour equals the target, regardless of that day's UTC offset. -/
theorem claim_C7_run_gate (tz : TimeZoneModel) (h i : Int) :
    should_send_now tz h i = true ↔
      (local_hour tz i = h ∧ local_minute tz i < 20) := by
  simp [should_send_now]

/-- C8 counterexample: when `save_state` fails at the end of an
otherwise-successful run (here: one NEW item to report), the digest email
is NOT sent and the run unwinds with the uncaught exception — refuting
"the error is reported to the operator but the run still completes (the
digest is still rendered and delivered)". -/
theorem claim_C8_counterexample :
    (run_tail [] [itEx] [] false false true).email_sent = false ∧
    (run_tail [] [itEx] [] false false true).raised = true :=
  ⟨rfl, rfl⟩

/-- C8 (amended): a persistence write failure in `save_state` propagates
as an uncaught exception and aborts the run before the digest is rendered
or delivered; nothing is persisted and no email is sent. -/
theorem claim_C8_amended (st : StateMap) (new_items : List Item)
    (updated_items : List (Item × Option String)) (always_send send_ok : Bool) :
    run_tail st new_items updated_items always_send false send_ok
      = ⟨none, false, true⟩ := rfl

/-- C9: the state store is saved before digest delivery is attempted: when
the send fails after a successful save, the full post-classification state
is already persisted while no email went out (first conjunct); and a key
whose observation was just recorded by the state-mutation step classifies
SKIP (UNCHANGED) when the identical observation is presented again, so
undelivered items are not re-delivered on the next run (second conjunct). -/
theorem claim_C9_save_before_send :
    (∀ (st : StateMap) (new_items : List Item)
       (updated_items : List (Item × Option String)) (always_send : Bool),
      (run_tail st new_items updated_items always_send true false).saved_state
          = some st ∧
        (run_tail st new_items updated_items always_send true false).email_sent
          = false) ∧
    (∀ (st : StateMap) (url : String) (it : Item) (ch : String)
       (lm : Option String) (now : String),
      classify_status (lookupKey (apply_state st url it ch lm now) url) ch lm
        = .SKIP) := by
  constructor
  · intro st new_items updated_items always_send
    unfold run_tail
    by_cases h : (new_items.isEmpty && updated_items.isEmpty && !always_send) = true
    · simp [h]
    · simp [h]
  · intro st url it ch lm now
    exact reobserve_skip st url it ch lm now

/-- C2 counterexample: 31 qualifying fresh items with distinct URLs and an
empty store; the loop stops after 30 NEW classifications, and the 31st
item's key is absent from the state store after the run — refuting "every
item beyond the cap ... its classification still updates the State Store". -/
theorem claim_C2_counterexample :
    items31.length = 31 ∧
    (process_candidates (fun s => s) (fun _ => ("x", none)) "2025-06-01"
        items31 [] 0).processed = 30 ∧
    lookupKey (process_candidates (fun s => s) (fun _ => ("x", none))
        "2025-06-01" items31 [] 0).state "https://site/30" = none := by
  exact ⟨by decide, by decide, by decide⟩

/-- C2 (amended): truncation is interleaved with classification rather
than applied after it: once 30 items have been classified NEW or UPDATED,
the loop stops; items beyond that point in the filtered order are not
classified at all — they are neither summarized nor placed in the digest,
and the State Store is not updated for them, so a later run sees a
never-before-seen over-cap item as NEW (UNCHANGED items do not count
against the cap). -/
theorem claim_C2_amended (hashFn : String → String)
    (fetch : Item → String × Option String) (now_local : String)
    (it : Item) (rest : List Item) (st : StateMap) (p : Nat)
    (hp : MAX_CANDIDATES ≤ p) :
    process_candidates hashFn fetch now_local (it :: rest) st p
      = ⟨st, [], [], [], p⟩ := by
  unfold process_candidates
  simp [hp]

/-- C2 witness: the cap-break branch at concrete inputs. -/
theorem claim_C2_witness :
    process_candidates id fetchC "2025-06-01" [itEx] st0 30
      = ⟨st0, [], [], [], 30⟩ :=
  claim_C2_amended id fetchC "2025-06-01" itEx [] st0 30 (by decide)

/-- C1 counterexample: a first-time key whose fetch yields no change hint
but whose item carries `published = "2020-01-01"`: the run classifies it
NEW, but the created record's `last_modified` is the `published` fallback,
not the fresh hint (`none`) — refuting "a record is created with ... the
fresh hint and fingerprint". -/
theorem claim_C1_counterexample :
    (process_candidates id (fun _ => ("body", none)) "2025-06-01"
        [itPub] [] 0).new_items = [itPub] ∧
    (lookupKey (process_candidates id (fun _ => ("body", none)) "2025-06-01"
        [itPub] [] 0).state "https://pub").map StateRecord.last_modified
      = some (some "2020-01-01") ∧
    some (some "2020-01-01") ≠ some (none : Option String) := by
  exact ⟨by decide, by decide, by decide⟩

/-- C1 (amended): for every key, fresh fingerprint, fresh hint and store,
the change classification follows exactly this order: if no StateRecord
exists for the key the result is NEW (and a record is created with
`first_seen = last_seen =` the current run date and the fresh fingerprint,
its hint being the fresh hint when that hint is present (non-empty),
otherwise the item's `published` timestamp, otherwise absent); else if the
fresh fingerprint differs from the stored `last_content_hash` the result
is UPDATED; else if the fresh hint is present (non-empty) and the stored
hint is absent or differs from it, the result is UPDATED; otherwise the
result is UNCHANGED (the item enters no digest list). -/
theorem claim_C1_amended (hashFn : String → String)
    (fetch : Item → String × Option String) (now_local : String)
    (it : Item) (st : StateMap)
    (hurl : normalise_url it.url ≠ "") :
    (lookupKey st (normalise_url it.url) = none →
      (process_candidates hashFn fetch now_local [it] st 0).new_items = [it] ∧
      (process_candidates hashFn fetch now_local [it] st 0).updated_items = [] ∧
      lookupKey (process_candidates hashFn fetch now_local [it] st 0).state
          (normalise_url it.url)
        = some { first_seen := now_local, last_seen := now_local,
                 last_modified := pyOr (fetch it).2 it.published none,
                 last_content_hash := hashFn (fetch it).1,
                 last_title := it.title, last_source := it.source }) ∧
    (∀ prev, lookupKey st (normalise_url it.url) = some prev →
      hashFn (fetch it).1 ≠ prev.last_content_hash →
      (process_candidates hashFn fetch now_local [it] st 0).new_items = [] ∧
      (process_candidates hashFn fetch now_local [it] st 0).updated_items.map
          Prod.fst = [it]) ∧
    (∀ prev, lookupKey st (normalise_url it.url) = some prev →
      hashFn (fetch it).1 = prev.last_content_hash →
      hintEscalates (fetch it).2 prev.last_modified = true →
      (process_candidates hashFn fetch now_local [it] st 0).new_items = [] ∧
      (process_candidates hashFn fetch now_local [it] st 0).updated_items.map
          Prod.fst = [it]) ∧
    (∀ prev, lookupKey st (normalise_url it.url) = some prev →
      hashFn (fetch it).1 = prev.last_content_hash →
      hintEscalates (fetch it).2 prev.last_modified = false →
      (process_candidates hashFn fetch now_local [it] st 0).new_items = [] ∧
      (process_candidates hashFn fetch now_local [it] st 0).updated_items = []) := by
  refine ⟨?_, ?_, ?_, ?_⟩
  · intro hnone
    unfold process_candidates
    simp [MAX_CANDIDATES, hurl, hnone, classify_status, apply_state,
      lookupKey_setKey_self, process_candidates]
  · intro prev hprev hne
    unfold process_candidates
    simp [MAX_CANDIDATES, hurl, hprev, classify_status, hne,
      process_candidates]
  · intro prev hprev heq hesc
    unfold process_candidates
    simp [MAX_CANDIDATES, hurl, hprev, classify_status, heq, hesc,
      process_candidates]
  · intro prev hprev heq hesc
    unfold process_candidates
    simp [MAX_CANDIDATES, hurl, hprev, classify_status, heq, hesc,
      process_candidates]

/-- C1 witness: the NEW branch at concrete inputs (empty store). -/
theorem claim_C1_witness :
    (process_candidates id fetchC "2025-06-01" [itEx] [] 0).new_items = [itEx] ∧
    (process_candidates id fetchC "2025-06-01" [itEx] [] 0).updated_items = [] ∧
    lookupKey (process_candidates id fetchC "2025-06-01" [itEx] [] 0).state
        (normalise_url itEx.url)
      = some { first_seen := "2025-06-01", last_seen := "2025-06-01",
               last_modified := pyOr (fetchC itEx).2 itEx.published none,
               last_content_hash := id (fetchC itEx).1,
               last_title := itEx.title, last_source := itEx.source } :=
  (claim_C1_amended id fetchC "2025-06-01" itEx [] (by decide)).1 (by decide)

/-- C5 counterexample: a stored record with title "Old" whose fresh
observation carries the same fingerprint, no hint, and title "New": the
outcome is UNCHANGED and the persisted record still says "Old" (only
`last_seen` moved) — refuting "the record's last_modified_hint,
last_content_fingerprint, last_title and last_source are refreshed to the
freshest observed values" on UNCHANGED. -/
theorem claim_C5_counterexample :
    classify_status (lookupKey st0 "https://x") "bodytext" none = .SKIP ∧
    (lookupKey (process_candidates id fetchC "2025-06-01" [itEx] st0 0).state
        "https://x").map StateRecord.last_title = some "Old" ∧
    itEx.title = "New" := by
  exact ⟨by decide, by decide, by decide⟩

/-- C5 (amended): whenever a record exists and the classification outcome
is UNCHANGED, only `last_seen` is advanced to the current run's date; the
record's `last_modified`, `last_content_hash`, `last_title` and
`last_source` keep their stored values (they are refreshed only on
UPDATED, and set at creation on NEW). -/
theorem claim_C5_amended (st : StateMap) (url : String) (it : Item)
    (ch : String) (lm : Option String) (now_local : String)
    (prev : StateRecord)
    (hprev : lookupKey st url = some prev)
    (hskip : classify_status (some prev) ch lm = .SKIP) :
    apply_state st url it ch lm now_local
      = setKey st url { prev with last_seen := now_local } := by
  simp [apply_state, hprev, hskip]

/-- C5 witness: the UNCHANGED branch at concrete inputs. -/
theorem claim_C5_witness :
    apply_state st0 "https://x" itEx "bodytext" none "2025-06-01"
      = setKey st0 "https://x" { rec0 with last_seen := "2025-06-01" } :=
  claim_C5_amended st0 "https://x" itEx "bodytext" none "2025-06-01" rec0
    (by decide) (by decide)

/-- The state mutation for one observed URL leaves every other key's
record untouched. -/
theorem lookupKey_apply_state_ne (st : StateMap) (url : String) (it : Item)
    (ch : String) (lm : Option String) (now_local key : String)
    (hk : key ≠ url) :
    lookupKey (apply_state st url it ch lm now_local) key
      = lookupKey st key := by
  unfold apply_state
  cases hlu : lookupKey st url with
  | none => exact lookupKey_setKey_ne _ _ _ _ hk
  | some prev =>
    cases hcl : classify_status (some prev) ch lm <;>
      simp only [hcl] <;> exact lookupKey_setKey_ne _ _ _ _ hk

/-- Any single state mutation of the pipeline leaves the `first_seen`
field of an already-existing record untouched. -/
theorem apply_state_first_seen (st : StateMap) (url : String) (it : Item)
    (ch : String) (lm : Option String) (now_local : String)
    (key : String) (rec : StateRecord)
    (h : lookupKey st key = some rec) :
    ∃ rec', lookupKey (apply_state st url it ch lm now_local) key = some rec' ∧
      rec'.first_seen = rec.first_seen := by
  by_cases hk : key = url
  · subst hk
    cases hcl : classify_status (some rec) ch lm with
    | NEW =>
      refine ⟨{ rec with
                last_seen := now_local
                last_modified := pyOr lm it.published rec.last_modified
                last_content_hash := ch
                last_title := it.title
                last_source := it.source }, ?_, rfl⟩
      simp [apply_state, h, hcl, lookupKey_setKey_self]
    | UPDATED =>
      refine ⟨{ rec with
                last_seen := now_local
                last_modified := pyOr lm it.published rec.last_modified
                last_content_hash := ch
                last_title := it.title
                last_source := it.source }, ?_, rfl⟩
      simp [apply_state, h, hcl, lookupKey_setKey_self]
    | SKIP =>
      refine ⟨{ rec with last_seen := now_local }, ?_, rfl⟩
      simp [apply_state, h, hcl, lookupKey_setKey_self]
  · exact ⟨rec,
      (lookupKey_apply_state_ne st url it ch lm now_local key hk).trans h, rfl⟩

/-- C10: a record's `first_seen` is written exactly once, at creation: for
every key already present in the store, running the candidate loop over
any item list leaves that key present with its `first_seen` unchanged. -/
theorem claim_C10_first_seen (hashFn : String → String)
    (fetch : Item → String × Option String) (now_local : String)
    (items : List Item) (st : StateMap) (p : Nat)
    (key : String) (rec : StateRecord)
    (h : lookupKey st key = some rec) :
    ∃ rec', lookupKey (process_candidates hashFn fetch now_local items st p).state
        key = some rec' ∧ rec'.first_seen = rec.first_seen := by
  induction items generalizing st p rec with
  | nil => exact ⟨rec, h, rfl⟩
  | cons it rest ih =>
    unfold process_candidates
    by_cases hp : MAX_CANDIDATES ≤ p
    · rw [if_pos hp]
      exact ⟨rec, h, rfl⟩
    · rw [if_neg hp]
      by_cases hurl : normalise_url it.url = ""
      · rw [if_pos hurl]
        exact ih st p rec h
      · rw [if_neg hurl]
        obtain ⟨rec₁, h₁, e₁⟩ := apply_state_first_seen st (normalise_url it.url)
          it (hashFn (fetch it).1) (fetch it).2 now_local key rec h
        cases hcl : classify_status (lookupKey st (normalise_url it.url))
            (hashFn (fetch it).1) (fetch it).2
        · simp only [hcl]
          rw [if_neg (by decide)]
          rw [if_pos (by decide)]
          obtain ⟨rec', h', e'⟩ := ih _ _ _ h₁
          exact ⟨rec', h', e'.trans e₁⟩
        · simp only [hcl]
          rw [if_neg (by decide)]
          rw [if_neg (by decide)]
          obtain ⟨rec', h', e'⟩ := ih _ _ _ h₁
          exact ⟨rec', h', e'.trans e₁⟩
        · simp only [hcl]
          rw [if_pos (by decide)]
          obtain ⟨rec', h', e'⟩ := ih _ _ _ h₁
          exact ⟨rec', h', e'.trans e₁⟩

/-- C10 witness: the pre-existing record of `st0` keeps its `first_seen`
through a concrete run. -/
theorem claim_C10_witness :
    ∃ rec', lookupKey (process_candidates id fetchC "2025-06-02" [itEx] st0
        0).state "https://x" = some rec' ∧ rec'.first_seen = rec0.first_seen :=
  claim_C10_first_seen id fetchC "2025-06-02" [itEx] st0 0 "https://x" rec0
    (by decide)

/-- Folding "+c if the predicate holds" over a list adds c per satisfying
entry. -/
theorem foldl_add_if (c : Int) (p : String → Bool) (L : List String) :
    ∀ a : Int, L.foldl (fun sc term => if p term then sc + c else sc) a
      = a + c * L.countP p := by
  induction L with
  | nil => intro a; simp
  | cons t ts ih =>
    intro a
    rw [List.foldl_cons, List.countP_cons]
    by_cases hp : p t
    · rw [if_pos hp, ih, if_pos hp]
      push_cast
      ring
    · rw [if_neg hp, ih, if_neg hp]
      simp

/-- Folding "−c if the predicate holds" over a list subtracts c per
satisfying entry. -/
theorem foldl_sub_if (c : Int) (p : String → Bool) (L : List String) :
    ∀ a : Int, L.foldl (fun sc term => if p term then sc - c else sc) a
      = a - c * L.countP p := by
  induction L with
  | nil => intro a; simp
  | cons t ts ih =>
    intro a
    rw [List.foldl_cons, List.countP_cons]
    by_cases hp : p t
    · rw [if_pos hp, ih, if_pos hp]
      push_cast
      ring
    · rw [if_neg hp, ih, if_neg hp]
      simp

/-- C6 counterexample: the haystack "immigration rules police custody
pre-charge bail strip searches" contains the strong term "immigration
rules", yet scores −3 (+6 for two strong terms, −9 for the three
exclusion phrases) — refuting "a text containing \"immigration rules\"
scores at least 3". -/
theorem claim_C6_counterexample :
    pyIn "immigration rules"
        (pyLower "immigration rules police custody pre-charge bail strip searches")
      = true ∧
    relevance_score
        "immigration rules police custody pre-charge bail strip searches"
      = -3 ∧
    ¬ (3 ≤ relevance_score
        "immigration rules police custody pre-charge bail strip searches") := by
  exact ⟨by decide, by decide, by decide⟩

/-- C6 (amended): for every haystack text, the relevance score equals the
sum of +3 for each distinct strong term present as a case-insensitive
substring, +1 for each distinct medium term present, and −3 for each
distinct exclusion phrase present, each listed term contributing at most
once regardless of how many times it occurs (the three term lists are
duplicate-free, so counting list entries counts distinct terms); in
particular a text containing "immigration rules" and none of the
exclusion phrases scores at least 3. -/
theorem claim_C6_amended :
    (∀ text : String,
      relevance_score text
        = 3 * (STRONG_TERMS.countP (fun term => pyIn term (pyLower text)) : Int)
          + (MEDIUM_TERMS.countP (fun term => pyIn term (pyLower text)) : Int)
          - 3 * (EXCLUDE_PHRASES.countP (fun phrase => pyIn phrase (pyLower text)) : Int)) ∧
    STRONG_TERMS.Nodup ∧ MEDIUM_TERMS.Nodup ∧ EXCLUDE_PHRASES.Nodup ∧
    (∀ text : String,
      pyIn "immigration rules" (pyLower text) = true →
      (∀ phrase ∈ EXCLUDE_PHRASES, pyIn phrase (pyLower text) = false) →
      3 ≤ relevance_score text) := by
  have hform : ∀ text : String,
      relevance_score text
        = 3 * (STRONG_TERMS.countP (fun term => pyIn term (pyLower text)) : Int)
          + (MEDIUM_TERMS.countP (fun term => pyIn term (pyLower text)) : Int)
          - 3 * (EXCLUDE_PHRASES.countP (fun phrase => pyIn phrase (pyLower text)) : Int) := by
    intro text
    simp only [relevance_score]
    rw [foldl_sub_if, foldl_add_if, foldl_add_if]
    ring
  refine ⟨hform, by decide, by decide, by decide, ?_⟩
  intro text hin hexcl
  rw [hform]
  have hex0 : EXCLUDE_PHRASES.countP (fun phrase => pyIn phrase (pyLower text)) = 0 := by
    rw [List.countP_eq_zero]
    intro phrase hmem
    simp [hexcl phrase hmem]
  have hstrong : 0 < STRONG_TERMS.countP (fun term => pyIn term (pyLower text)) := by
    rw [List.countP_pos_iff]
    exact ⟨"immigration rules", by decide, hin⟩
  rw [hex0]
  have hm : (0 : Int) ≤ (MEDIUM_TERMS.countP (fun term => pyIn term (pyLower text)) : Int) := by
    positivity
  omega

/-- C6 witness: the spec's own scenario title. -/
theorem claim_C6_witness :
    3 ≤ relevance_score "Immigration Rules: Statement of Changes HC123" :=
  claim_C6_amended.2.2.2.2 "Immigration Rules: Statement of Changes HC123"
    (by decide) (by decide)

/-- C4: with a non-empty keyword list, an item none of whose (lowered)
keywords occurs in its case-folded haystack is discarded by the prefilter
before scoring: it appears in `filter_items`' output under no score, so no
relevance score is ever attached to it. (The code's prefilter has no
"core instrument" override escape, so the discard holds a fortiori under
the claim's extra override hypothesis.) -/
theorem claim_C4_prefilter (items : List Item) (keywords : List String)
    (it : Item) (hk : keywords ≠ [])
    (hmiss : ∀ k ∈ keywords, pyIn (pyLower k) (mkHaystack it) = false) :
    ∀ score : Int, (it, score) ∉ filter_items items keywords := by
  intro score hmem
  unfold filter_items at hmem
  rw [List.mem_mergeSort, List.mem_filterMap] at hmem
  obtain ⟨a, _, hfa⟩ := hmem
  by_cases hcond : (!(keywords.map pyLower).isEmpty
      && !((keywords.map pyLower).any fun k => pyIn k (mkHaystack a))) = true
  · rw [if_pos hcond] at hfa
    exact Option.noConfusion hfa
  · rw [if_neg hcond] at hfa
    have ha : a = it := by
      by_cases hsc : 3 ≤ relevance_score (mkHaystack a)
      · rw [if_pos hsc] at hfa
        exact congrArg Prod.fst (Option.some.inj hfa)
      · rw [if_neg hsc] at hfa
        exact absurd hfa (Option.noConfusion)
    subst ha
    apply hcond
    rw [Bool.and_eq_true, Bool.not_eq_true', Bool.not_eq_true']
    constructor
    · rw [List.isEmpty_eq_false]
      simpa using hk
    · rw [List.any_eq_false]
      intro k hkmem
      rw [List.mem_map] at hkmem
      obtain ⟨k₀, hk₀, rfl⟩ := hkmem
      simp [hmiss k₀ hk₀]

/-- C4 witness: a concrete item containing none of the keywords. -/
theorem claim_C4_witness : (itEx, (5 : Int)) ∉ filter_items [itEx] ["zzz"] :=
  claim_C4_prefilter [itEx] ["zzz"] itEx (by decide) (by decide) 5

/-- A list unshortened by `dropWhile` is returned whole. -/
theorem dropWhile_eq_self_of_length (p : Char → Bool) (l : List Char)
    (hl : l.length ≤ (l.dropWhile p).length) : l.dropWhile p = l :=
  (List.dropWhile_sublist p).eq_of_length_le hl

/-- A `pyStrip` fixed point is also a fixed point of both one-sided
whitespace drops. -/
theorem pyStrip_parts (l : List Char) (h : pyStrip l = l) :
    l.dropWhile Char.isWhitespace = l ∧
    l.reverse.dropWhile Char.isWhitespace = l.reverse := by
  have hlen : l.length ≤ (l.dropWhile Char.isWhitespace).length := by
    have h0 := congrArg List.length h
    unfold pyStrip at h0
    rw [List.length_reverse] at h0
    have h2 := (List.dropWhile_sublist
      (l := (l.dropWhile Char.isWhitespace).reverse) Char.isWhitespace).length_le
    rw [List.length_reverse] at h2
    omega
  have hfront : l.dropWhile Char.isWhitespace = l :=
    dropWhile_eq_self_of_length _ _ hlen
  refine ⟨hfront, ?_⟩
  have h1 : pyStrip l = (l.reverse.dropWhile Char.isWhitespace).reverse := by
    unfold pyStrip
    rw [hfront]
  rw [h1] at h
  have h2 := congrArg List.reverse h
  rw [List.reverse_reverse] at h2
  exact h2

/-- `dropWhile` fixed points are closed under appending. -/
theorem dropWhile_eq_self_append (p : Char → Bool) (l l₂ : List Char)
    (h : l.dropWhile p = l) (h₂ : l₂.dropWhile p = l₂) :
    (l ++ l₂).dropWhile p = l ++ l₂ := by
  cases l with
  | nil => simpa using h₂
  | cons c t =>
    have hp : p c = false := by
      by_contra hpc
      rw [Bool.not_eq_false] at hpc
      rw [List.dropWhile_cons, if_pos hpc] at h
      have h1 := (List.dropWhile_sublist (l := t) p).length_le
      have h3 := congrArg List.length h
      simp only [List.length_cons] at h3
      omega
    rw [List.cons_append, List.dropWhile_cons, if_neg (by simp [hp])]

/-- Appending a trailing slash to a stripped character list stays
stripped. -/
theorem pyStrip_append_slash (l : List Char) (h : pyStrip l = l) :
    pyStrip (l ++ ['/']) = l ++ ['/'] := by
  obtain ⟨hf, hb⟩ := pyStrip_parts l h
  have hsl : (['/'] : List Char).dropWhile Char.isWhitespace = ['/'] := by decide
  unfold pyStrip
  rw [dropWhile_eq_self_append _ _ _ hf hsl]
  rw [List.reverse_append]
  have hrev : (['/'] : List Char).reverse ++ l.reverse = '/' :: l.reverse := rfl
  rw [hrev]
  rw [List.dropWhile_cons, if_neg (by decide)]
  simp

/-- `takeWhile (· != '#')` keeps a hash-free list whole. -/
theorem takeWhile_no_hash (l : List Char) (h : '#' ∉ l) :
    l.takeWhile (fun c => c != '#') = l := by
  rw [List.takeWhile_eq_self_iff]
  intro x hx
  simp only [bne_iff_ne, ne_eq]
  intro he
  subst he
  exact h hx

/-- `takeWhile (· != '#')` truncates at the first hash. -/
theorem takeWhile_stops_at_hash (l l₂ : List Char) (h : '#' ∉ l) :
    (l ++ '#' :: l₂).takeWhile (fun c => c != '#') = l := by
  rw [List.takeWhile_append_of_pos]
  · rw [List.takeWhile_cons_of_neg (by decide)]
    simp
  · intro a ha
    simp only [bne_iff_ne, ne_eq]
    intro he
    subst he
    exact h ha

/-- C3 counterexample: two URLs differing only by letter case map to
different keys — `normalise_url` never lower-cases, refuting "or by
letter case (the key being lower-cased for comparison)". -/
theorem claim_C3_counterexample :
    normalise_url "https://GOV.UK/Guidance"
      ≠ normalise_url "https://gov.uk/guidance" := by
  decide

/-- C3 (amended): for every pair of raw URLs that differ only by a
fragment identifier or by trailing-slash variation, `normalise_url`
returns equal canonical keys (for a clean base URL — no `'#'`, no
trailing slash, no surrounding whitespace — the base itself, the
slash-suffixed form, and any fragment-suffixed forms all map to the
base); the comparison is case-sensitive, and this key is the identity
used for deduplication and state lookup in the candidate loop. -/
theorem claim_C3_amended (u : String)
    (hno : '#' ∉ u.data)
    (hstrip : pyStrip u.data = u.data)
    (hslash : u.data.getLast? ≠ some '/') :
    normalise_url u = u ∧
    normalise_url (u ++ "/") = u ∧
    (∀ frag : String, normalise_url (u ++ "#" ++ frag) = u) ∧
    (∀ frag : String, normalise_url (u ++ "/#" ++ frag) = u) := by
  have hno2 : '#' ∉ u.data ++ ['/'] := by
    simp only [List.mem_append, List.mem_singleton]
    rintro (h | h)
    · exact hno h
    · exact absurd h (by decide)
  refine ⟨?_, ?_, ?_, ?_⟩
  · simp only [normalise_url]
    rw [takeWhile_no_hash u.data hno, hstrip, if_neg hslash]
  · simp only [normalise_url]
    rw [String.data_append]
    rw [show ("/" : String).data = ['/'] from rfl]
    rw [takeWhile_no_hash _ hno2, pyStrip_append_slash u.data hstrip]
    rw [if_pos (List.getLast?_concat _), List.dropLast_concat]
  · intro frag
    simp only [normalise_url]
    rw [String.data_append, String.data_append]
    rw [show ("#" : String).data = ['#'] from rfl]
    rw [List.append_assoc]
    rw [show (['#'] : List Char) ++ frag.data = '#' :: frag.data from rfl]
    rw [takeWhile_stops_at_hash u.data frag.data hno, hstrip, if_neg hslash]
  · intro frag
    simp only [normalise_url]
    rw [String.data_append, String.data_append]
    rw [show ("/#" : String).data = ['/', '#'] from rfl]
    rw [List.append_assoc]
    rw [show (['/', '#'] : List Char) ++ frag.data
        = ['/'] ++ '#' :: frag.data from rfl]
    rw [← List.append_assoc]
    rw [takeWhile_stops_at_hash (u.data ++ ['/']) frag.data hno2]
    rw [pyStrip_append_slash u.data hstrip]
    rw [if_pos (List.getLast?_concat _), List.dropLast_concat]

/-- C3 witness: fragment and trailing-slash variants of a concrete
GOV.UK URL share its key. -/
theorem claim_C3_witness :
    normalise_url "https://www.gov.uk/guidance#content"
        = "https://www.gov.uk/guidance" ∧
    normalise_url "https://www.gov.uk/guidance/"
        = "https://www.gov.uk/guidance" :=
  ⟨(claim_C3_amended "https://www.gov.uk/guidance" (by decide) (by decide)
      (by decide)).2.2.1 "content",
   (claim_C3_amended "https://www.gov.uk/guidance" (by decide) (by decide)
      (by decide)).2.1⟩
